import Mathlib

/-!
Shallow embedding of the docling-gusperz document-processing service
(`src/app.py`) and verification of the specification's claims about its
request-to-chunk transformation pipeline.

The external document-conversion engine (docling) and the hybrid chunker are
collaborators: their outputs (a structured document, a list of merged chunk
groups) are inputs to the embedded handlers.  The HTTP layer is modelled by
calling each handler as a function; effectful steps (reading the upload,
creating and unlinking the temporary file) are recorded in an explicit event
trace so that ordering and cleanup claims can be stated.
-/

/-! ## Python-primitive helpers -/

/-- Decimal digit characters, as produced by Python `str(int)` for one digit. -/
def digitVal (c : Char) : Nat := c.toNat - 48

/-- Fuel-based decimal rendering of a natural number (little-endian recursion,
most-significant digit first in the result).  `natStrAux n n` renders a
positive `n`; the fuel argument makes the recursion structural. -/
def natStrAux : Nat → Nat → List Char
  | 0, _ => []
  | _ + 1, 0 => []
  | fuel + 1, n + 1 =>
      natStrAux fuel ((n + 1) / 10) ++ [Nat.digitChar ((n + 1) % 10)]

/-- Models Python `str(int)` (as interpolated by the f-strings building
`chunk_id`): the usual base-10 rendering, with `"0"` for zero. -/
def natStr (n : Nat) : String :=
  if n = 0 then "0" else String.mk (natStrAux n n)

/-- Models Python `s.lower()` on the ASCII labels produced by the converter. -/
def pyLower (s : String) : String := String.mk (s.data.map Char.toLower)

/-- Contiguous-substring test on character lists: models Python `sub in hay`. -/
def charsHasSub (hay sub : List Char) : Bool :=
  (List.range (hay.length + 1)).any fun i =>
    decide (((hay.drop i).take sub.length) = sub)

/-- Models Python `sub in hay` for strings. -/
def strHasSub (hay sub : String) : Bool := charsHasSub hay.data sub.data

/-- Auxiliary splitter: accumulates the current (reversed) run of
non-whitespace characters and emits maximal runs. -/
def splitWsAux : List Char → List Char → List (List Char)
  | [], cur => if cur = [] then [] else [cur.reverse]
  | c :: cs, cur =>
      if c.isWhitespace then
        if cur = [] then splitWsAux cs []
        else cur.reverse :: splitWsAux cs []
      else splitWsAux cs (c :: cur)

/-- Models Python `s.split()` with no separator argument: maximal runs of
non-whitespace characters, empty pieces discarded. -/
def pyWsTokens (s : String) : List String := (splitWsAux s.data []).map String.mk

/-- Last index at which character `c` occurs in `cs`, if any. -/
def lastIdxOf (cs : List Char) (c : Char) : Option Nat :=
  ((List.range cs.length).filter fun i => decide ((cs.drop i).take 1 = [c])).getLast?

/-- Models `os.path.splitext(name)[1]`: the extension starts at the last dot,
unless every character between the start of the base name (after the last
path separator) and that dot is itself a dot. -/
def splitextExt (name : String) : String :=
  let cs := name.data
  let start := match lastIdxOf cs '/' with
    | some i => i + 1
    | none => 0
  match lastIdxOf cs '.' with
  | none => ""
  | some sep =>
      if start < sep ∧ ((cs.drop start).take (sep - start)).any (fun c => c != '.') then
        String.mk (cs.drop sep)
      else ""

/-- Models `suffix[1:] if suffix else "unknown"` (line 194 of `src/app.py`). -/
def fileTypeOf (suffix : String) : String :=
  if suffix = "" then "unknown" else String.mk suffix.data.tail

/-- Round-half-to-even on rationals, modelling Python `round` on an exactly
representable value. -/
def roundHalfEven (q : ℚ) : ℤ :=
  let f := ⌊q⌋
  let r := q - f
  if r < 1 / 2 then f
  else if 1 / 2 < r then f + 1
  else if f % 2 = 0 then f else f + 1

/-- Models Python `round(x, 2)` as used for `file_size_mb`. -/
def round2 (q : ℚ) : ℚ := (roundHalfEven (q * 100) : ℚ) / 100

/-! ## Data model (document side, produced by the external converter) -/

/-- Bounding box of one provenance entry (`prov.bbox` with edges
`l`, `t`, `r`, `b`). -/
structure BBox where
  l : ℚ
  t : ℚ
  r : ℚ
  b : ℚ
deriving DecidableEq

/-- One provenance entry of a document element: a 1-based page number and an
optional bounding box. -/
structure Prov where
  page : Nat
  bbox : Option BBox
deriving DecidableEq

/-- A labeled document element yielded by `doc.iterate_items()`. -/
structure Element where
  text : String
  label : String
  prov : List Prov
deriving DecidableEq

/-- A converted document as consumed by `/api/process`: the iterated elements
plus the page count `len(doc.pages)`. -/
structure RawDoc where
  elements : List Element
  numPages : Nat
deriving DecidableEq

/-- One merged group produced by the external `HybridChunker`: its text and
the constituent document elements (`chunk.meta.doc_items`). -/
structure RagGroup where
  text : String
  doc_items : List Element
deriving DecidableEq

/-- Conversion plus chunking result consumed by `/api/process-rag`. -/
structure RagDoc where
  groups : List RagGroup
  numPages : Nat
deriving DecidableEq

/-- A table of one page, as exposed by `page.tables` in `/api/extract-tables`;
`data` is the opaque structure payload (`table.data`), absent when falsy. -/
structure PgTable where
  text : String
  prov : List Prov
  data : Option String
deriving DecidableEq

/-- One page of the converted document as consumed by `/api/extract-tables`. -/
structure Page where
  page_no : Nat
  tables : List PgTable
deriving DecidableEq

/-- Converted document consumed by `/api/extract-tables`. -/
structure TDoc where
  pages : List Page
deriving DecidableEq

/-! ## Data model (response side) -/

/-- Metadata of one raw-mode chunk; `page`/`bbox` keys are present only when
the element had provenance (resp. a bounding box). -/
structure RawChunkMeta where
  filename : String
  chunk_index : Nat
  element_type : String
  page : Option Nat
  bbox : Option BBox
deriving DecidableEq

/-- One raw-mode chunk (lines 146-155 of `src/app.py`). -/
structure RawChunk where
  chunk_id : String
  text : String
  type : String
  metadata : RawChunkMeta
deriving DecidableEq

/-- One record of the side `tables` list (lines 174-178). -/
structure TableRec where
  page : Option Nat
  text : String
  bbox : Option BBox
deriving DecidableEq

/-- One record of the side `images` list (lines 183-187). -/
structure ImageRec where
  page : Option Nat
  caption : String
  bbox : Option BBox
deriving DecidableEq

/-- Document-level metadata of a raw-mode response (lines 191-199). -/
structure RawMetadata where
  filename : String
  file_size_mb : ℚ
  file_type : String
  total_pages : Nat
  total_chunks : Nat
  total_tables : Nat
  total_images : Nat
deriving DecidableEq

/-- Raw-mode response envelope; the `tables`/`images` keys are optional
(lines 203-213). -/
structure RawResponse where
  success : Bool
  metadata : RawMetadata
  chunks : List RawChunk
  tables : Option (List TableRec)
  images : Option (List ImageRec)
deriving DecidableEq

/-- Metadata of one RAG-mode chunk (lines 309-317). -/
structure RagChunkMeta where
  filename : String
  chunk_index : Nat
  pages : List Nat
  element_types : List String
  has_table : Bool
  has_figure : Bool
  token_count : Nat
deriving DecidableEq

/-- One RAG-mode chunk (lines 306-318). -/
structure RagChunk where
  chunk_id : String
  text : String
  metadata : RagChunkMeta
deriving DecidableEq

/-- Echoed chunking configuration (lines 327-331). -/
structure ChunkingConfig where
  max_tokens : Int
  overlap : Int
  merge_peers : Bool
deriving DecidableEq

/-- Document-level metadata of a RAG-mode response (lines 322-332). -/
structure RagMetadata where
  filename : String
  file_size_mb : ℚ
  total_pages : Nat
  total_chunks : Nat
  chunking_config : ChunkingConfig
deriving DecidableEq

/-- RAG-mode response envelope (lines 336-340). -/
structure RagResponse where
  success : Bool
  metadata : RagMetadata
  chunks : List RagChunk
deriving DecidableEq

/-- One flattened table record of `/api/extract-tables` (lines 378-396);
`tableStructure` embeds the `structure` key (a Lean keyword). -/
structure TableOut where
  page : Nat
  text : String
  bbox : Option BBox
  tableStructure : Option String
deriving DecidableEq

/-- Response envelope of `/api/extract-tables` (lines 400-405). -/
structure TablesResponse where
  success : Bool
  filename : String
  total_tables : Nat
  tables : List TableOut
deriving DecidableEq

/-- Response of `GET /health` (lines 85-88). -/
structure HealthResponse where
  status : String
  converter_ready : Bool
deriving DecidableEq

/-- Error classes raised by the handlers; the formatted Spanish detail strings
are abstracted to tags carrying the data they interpolate. -/
inductive ErrDetail
  | converterNotInit
  | fileTooLarge
  | processingError (msg : String)
deriving DecidableEq

/-- An `HTTPException` with its status code. -/
structure HttpErr where
  status : Nat
  detail : ErrDetail
deriving DecidableEq

/-- Effectful steps of a handler, recorded in order: reading the upload,
writing the temporary file, attempting to unlink it, and a failed unlink
(which is only logged). -/
inductive Event
  | fileRead
  | tempCreated
  | unlinkTried
  | unlinkFailed
deriving DecidableEq

/-- Result of a handler invocation: the HTTP-level result plus the ordered
trace of effectful steps. -/
structure Outcome (α : Type) where
  result : Except HttpErr α
  events : List Event

/-- The `finally` block (lines 226-233 / 348-353 / 411-416): the unlink is
always attempted once the temporary file exists; a failure is swallowed. -/
def cleanupEvents (unlinkFails : Bool) : List Event :=
  Event.unlinkTried :: (if unlinkFails then [Event.unlinkFailed] else [])

/-! ## Chunk Assembler — raw mode (`process_document`, lines 140-213) -/

/-- First provenance page of an element: `element.prov[0].page` when
`element.prov` is non-empty. -/
def firstProvPage (e : Element) : Option Nat := e.prov.head?.map Prov.page

/-- First provenance bounding box: set only when the element has provenance
and that entry's `bbox` is truthy (lines 158-168). -/
def firstProvBBox (e : Element) : Option BBox := e.prov.head?.bind Prov.bbox

/-- One raw-mode chunk for the element at position `idx` (lines 146-168). -/
def mkRawChunk (filename : String) (idx : Nat) (e : Element) : RawChunk :=
  { chunk_id := filename ++ "_" ++ natStr idx
    text := e.text
    type := e.label
    metadata :=
      { filename := filename
        chunk_index := idx
        element_type := e.label
        page := firstProvPage e
        bbox := firstProvBBox e } }

/-- The full raw-mode chunk list: `for idx, element in enumerate(...)`. -/
def rawChunks (filename : String) (elems : List Element) : List RawChunk :=
  elems.enum.map fun p => mkRawChunk filename p.1 p.2

/-- Side record for a table element (lines 174-178): page and bbox are taken
from the chunk's metadata, text from the element. -/
def mkTableRec (e : Element) : TableRec :=
  { page := firstProvPage e, text := e.text, bbox := firstProvBBox e }

/-- Side record for a picture element (lines 183-187). -/
def mkImageRec (e : Element) : ImageRec :=
  { page := firstProvPage e, caption := e.text, bbox := firstProvBBox e }

/-- The side `tables` list: a record per element with `extract_tables` set and
`"table" in element.label.lower()` (lines 172-179). -/
def tableRecs (extract_tables : Bool) (elems : List Element) : List TableRec :=
  elems.filterMap fun e =>
    if extract_tables && strHasSub (pyLower e.label) "table" then some (mkTableRec e)
    else none

/-- The side `images` list: a record per element with `extract_images` set and
`"picture" in element.label.lower()` (lines 181-188). -/
def imageRecs (extract_images : Bool) (elems : List Element) : List ImageRec :=
  elems.filterMap fun e =>
    if extract_images && strHasSub (pyLower e.label) "picture" then some (mkImageRec e)
    else none

/-- Raw-mode response (lines 190-213): metadata counts the assembled lists;
the `tables`/`images` keys appear only with the flag set and a non-empty
list (`if extract_tables and tables:`). -/
def buildRawResponse (filename : String) (sizeMb : ℚ) (extract_tables extract_images : Bool)
    (doc : RawDoc) : RawResponse :=
  let suffix := pyLower (splitextExt filename)
  let chunks := rawChunks filename doc.elements
  let tables := tableRecs extract_tables doc.elements
  let images := imageRecs extract_images doc.elements
  { success := true
    metadata :=
      { filename := filename
        file_size_mb := round2 sizeMb
        file_type := fileTypeOf suffix
        total_pages := doc.numPages
        total_chunks := chunks.length
        total_tables := tables.length
        total_images := images.length }
    chunks := chunks
    tables := if extract_tables && !tables.isEmpty then some tables else none
    images := if extract_images && !images.isEmpty then some images else none }

/-! ## Chunk Assembler — RAG mode (`process_for_rag`, lines 286-340) -/

/-- A Python set of strings is enumerated into a list in an order the runtime
does not fix (string hashes are randomized per process); an enumeration
strategy is any function returning some duplicate-free listing of the
inserted elements. -/
def IsSetEnum (enum : List String → List String) : Prop :=
  ∀ l : List String, (enum l).Perm l.dedup

/-- The `pages` metadata field (lines 289-296, 312): the set of first-provenance
pages of the constituents, enumerated and sorted ascending by `sorted(...)`. -/
def ragPages (g : RagGroup) : List Nat :=
  List.insertionSort (· ≤ ·) (g.doc_items.filterMap firstProvPage).dedup

/-- The `element_types` metadata field (lines 290, 299, 313): the set of
constituent labels in insertion order, enumerated by the strategy `enum`. -/
def ragElementTypes (enum : List String → List String) (g : RagGroup) : List String :=
  enum (g.doc_items.map Element.label)

/-- `has_table` (lines 298-302): some constituent label contains `"table"`. -/
def ragHasTable (g : RagGroup) : Bool :=
  g.doc_items.any fun e => strHasSub (pyLower e.label) "table"

/-- `has_figure` (lines 303-304): some constituent label contains `"figure"`
or `"picture"`. -/
def ragHasFigure (g : RagGroup) : Bool :=
  g.doc_items.any fun e =>
    strHasSub (pyLower e.label) "figure" || strHasSub (pyLower e.label) "picture"

/-- One RAG-mode chunk for the group at position `idx` (lines 287-318). -/
def mkRagChunk (enum : List String → List String) (filename : String) (idx : Nat)
    (g : RagGroup) : RagChunk :=
  { chunk_id := filename ++ "_rag_" ++ natStr idx
    text := g.text
    metadata :=
      { filename := filename
        chunk_index := idx
        pages := ragPages g
        element_types := ragElementTypes enum g
        has_table := ragHasTable g
        has_figure := ragHasFigure g
        token_count := (pyWsTokens g.text).length } }

/-- The full RAG-mode chunk list: `for idx, chunk in enumerate(chunker.chunk(doc))`. -/
def ragChunks (enum : List String → List String) (filename : String)
    (groups : List RagGroup) : List RagChunk :=
  groups.enum.map fun p => mkRagChunk enum filename p.1 p.2

/-- RAG-mode response (lines 322-340). -/
def buildRagResponse (enum : List String → List String) (filename : String) (sizeMb : ℚ)
    (chunk_size chunk_overlap : Int) (merge_peers : Bool) (doc : RagDoc) : RagResponse :=
  let chunks := ragChunks enum filename doc.groups
  { success := true
    metadata :=
      { filename := filename
        file_size_mb := round2 sizeMb
        total_pages := doc.numPages
        total_chunks := chunks.length
        chunking_config :=
          { max_tokens := chunk_size, overlap := chunk_overlap, merge_peers := merge_peers } }
    chunks := chunks }

/-! ## Table-Only Extractor (`extract_tables_only`, lines 375-405) -/

/-- One flattened table record (lines 378-396). -/
def mkTableOut (page_no : Nat) (t : PgTable) : TableOut :=
  { page := page_no
    text := t.text
    bbox := t.prov.head?.bind Prov.bbox
    tableStructure := t.data }

/-- Flatten `page → table` pairs in page order, then in-page order. -/
def flattenTables (doc : TDoc) : List TableOut :=
  doc.pages.flatMap fun pg => pg.tables.map (mkTableOut pg.page_no)

/-- Response of `/api/extract-tables` (lines 400-405). -/
def buildTablesResponse (filename : String) (doc : TDoc) : TablesResponse :=
  let tables := flattenTables doc
  { success := true, filename := filename, total_tables := tables.length, tables := tables }

/-! ## Endpoint handlers with effect traces -/

/-- The size validation of lines 120-121 / 263-265: `file_size_mb > 50` with
`file_size_mb = len(content) / (1024 * 1024)`.  (For byte counts below `2^53`
the Python float division is exact, so the float comparison coincides with
the rational one; for larger counts both sides exceed 50 anyway.) -/
def sizeExceeds50MB (contentLen : Nat) : Prop :=
  (contentLen : ℚ) / (1024 * 1024) > 50

instance : DecidablePred sizeExceeds50MB := fun n =>
  decidable_of_iff (52428800 < n) (by
    rw [sizeExceeds50MB, gt_iff_lt, lt_div_iff₀ (by norm_num : (0:ℚ) < 1024 * 1024)]
    norm_num)

/-- `GET /health` (lines 82-88): `converter_ready` is `converter is not None`. -/
def health_check (ready : Bool) : HealthResponse :=
  { status := "ok", converter_ready := ready }

/-- `POST /api/process` (lines 90-233).  `ready` is `converter is not None`;
`convert` is the external converter's outcome; `unlinkFails` drives the
cleanup failure branch.  `do_ocr` is accepted and unused, as in the source. -/
def process_document (ready : Bool) (filename : String) (contentLen : Nat)
    (extract_tables extract_images do_ocr : Bool)
    (convert : Except String RawDoc) (unlinkFails : Bool) : Outcome RawResponse :=
  if ready = false then
    { result := .error ⟨503, .converterNotInit⟩, events := [] }
  else
    let sizeMb : ℚ := (contentLen : ℚ) / (1024 * 1024)
    if sizeExceeds50MB contentLen then
      { result := .error ⟨413, .fileTooLarge⟩, events := [.fileRead] }
    else
      match convert with
      | .error msg =>
          { result := .error ⟨500, .processingError msg⟩
            events := [.fileRead, .tempCreated] ++ cleanupEvents unlinkFails }
      | .ok doc =>
          { result := .ok (buildRawResponse filename sizeMb extract_tables extract_images doc)
            events := [.fileRead, .tempCreated] ++ cleanupEvents unlinkFails }

/-- `POST /api/process-rag` (lines 235-353). -/
def process_for_rag (ready : Bool) (filename : String) (contentLen : Nat)
    (chunk_size chunk_overlap : Int) (merge_peers : Bool)
    (enum : List String → List String)
    (convert : Except String RagDoc) (unlinkFails : Bool) : Outcome RagResponse :=
  if ready = false then
    { result := .error ⟨503, .converterNotInit⟩, events := [] }
  else
    let sizeMb : ℚ := (contentLen : ℚ) / (1024 * 1024)
    if sizeExceeds50MB contentLen then
      { result := .error ⟨413, .fileTooLarge⟩, events := [.fileRead] }
    else
      match convert with
      | .error msg =>
          { result := .error ⟨500, .processingError msg⟩
            events := [.fileRead, .tempCreated] ++ cleanupEvents unlinkFails }
      | .ok doc =>
          { result := .ok (buildRagResponse enum filename sizeMb chunk_size chunk_overlap
              merge_peers doc)
            events := [.fileRead, .tempCreated] ++ cleanupEvents unlinkFails }

/-- `POST /api/extract-tables` (lines 355-416): note there is no size
validation on this path. -/
def extract_tables_only (ready : Bool) (filename : String) (contentLen : Nat)
    (convert : Except String TDoc) (unlinkFails : Bool) : Outcome TablesResponse :=
  if ready = false then
    { result := .error ⟨503, .converterNotInit⟩, events := [] }
  else
    match convert with
    | .error msg =>
        { result := .error ⟨500, .processingError msg⟩
          events := [.fileRead, .tempCreated] ++ cleanupEvents unlinkFails }
    | .ok doc =>
        { result := .ok (buildTablesResponse filename doc)
          events := [.fileRead, .tempCreated] ++ cleanupEvents unlinkFails }

/-! ## Spreadsheet Row Chunker (spec-modelled) -/

/-- Modelled from the spec: the `/api/process-excel` endpoint of a later
revision is not under `src/`; `src/app.py` contains only the document
endpoints.  A spreadsheet row is an ordered list of `(column, value)` pairs,
a missing value standing for a null cell (spec section 4.3). -/
structure ExcelRow where
  cells : List (String × Option String)
deriving DecidableEq

/-- Modelled from the spec: row text joins `"{column}: {value}"` for every
non-null cell, in column order, separated by `", "`. -/
def rowText (r : ExcelRow) : String :=
  String.intercalate ", " (r.cells.filterMap fun cv => cv.2.map fun v => cv.1 ++ ": " ++ v)

/-- Modelled from the spec: true when every cell of the row is null. -/
def allNullRow (r : ExcelRow) : Bool := r.cells.all fun cv => cv.2.isNone

/-- Metadata of one spreadsheet chunk (spec section 3). -/
structure ExcelChunkMeta where
  filename : String
  row : Nat
deriving DecidableEq

/-- One spreadsheet chunk (spec sections 3 and 4.3). -/
structure ExcelChunk where
  text : String
  metadata : ExcelChunkMeta
deriving DecidableEq

/-- Modelled from the spec: one chunk per row with non-empty derived text, in
source order, with `metadata.row` the zero-based row index plus 2. -/
def excelChunks (filename : String) (rows : List ExcelRow) : List ExcelChunk :=
  rows.enum.filterMap fun p =>
    if rowText p.2 = "" then none
    else some { text := rowText p.2, metadata := { filename := filename, row := p.1 + 2 } }

/-- Spreadsheet response metadata (spec section 4.3). -/
structure ExcelMeta where
  filename : String
  total_rows : Nat
  total_chunks : Nat
deriving DecidableEq

/-- Modelled from the spec: `total_rows` counts every source row,
`total_chunks` only the emitted chunks. -/
def excelMeta (filename : String) (rows : List ExcelRow) : ExcelMeta :=
  { filename := filename
    total_rows := rows.length
    total_chunks := (excelChunks filename rows).length }

/-! ## Concrete fixtures used by witnesses and counterexamples -/

/-- A set-enumeration strategy listing elements in first-insertion order. -/
def enumA : List String → List String := fun l => l.dedup

/-- A set-enumeration strategy listing elements in reverse insertion order. -/
def enumB : List String → List String := fun l => l.dedup.reverse

/-- A text element on page 1. -/
def elemText1 : Element := ⟨"hello world", "text", [⟨1, none⟩]⟩

/-- A table element on page 3. -/
def elemTable3 : Element := ⟨"cell", "table", [⟨3, none⟩]⟩

/-- A merged RAG group whose constituents sit on pages 3 and 1. -/
def gW : RagGroup := ⟨"hello world cell", [elemTable3, elemText1]⟩

/-- A spreadsheet row whose cells are all null. -/
def rowAllNull : ExcelRow := ⟨[("a", none), ("b", none)]⟩

/-! ## Helper lemmas -/

theorem sizeExceeds_iff (n : Nat) : sizeExceeds50MB n ↔ 52428800 < n := by
  rw [sizeExceeds50MB, gt_iff_lt, lt_div_iff₀ (by norm_num : (0:ℚ) < 1024 * 1024)]
  norm_num

theorem not_sizeExceeds_of_le {n : Nat} (h : (n : ℚ) / (1024 * 1024) ≤ 50) :
    ¬ sizeExceeds50MB n := by
  rw [sizeExceeds50MB, gt_iff_lt, not_lt]
  exact h

theorem sizeExceeds_of_gt {n : Nat} (h : (50 : ℚ) < (n : ℚ) / (1024 * 1024)) :
    sizeExceeds50MB n := h

theorem mb_exact_50_le : ((52428800 : Nat) : ℚ) / (1024 * 1024) ≤ 50 := by norm_num

theorem mb_above_50_gt : (50 : ℚ) < ((52428801 : Nat) : ℚ) / (1024 * 1024) := by norm_num

theorem filterMap_if_eq_filter_map {α β : Type} (p : α → Bool) (f : α → β) (l : List α) :
    (l.filterMap fun a => if p a then some (f a) else none) = (l.filter p).map f := by
  induction l with
  | nil => rfl
  | cons a t ih => by_cases h : p a <;> simp [List.filterMap_cons, List.filter_cons, h, ih]

theorem option_gate_isSome {α : Type} (b : Bool) (l : List α) :
    (if b && !l.isEmpty then some l else none).isSome ↔ b = true ∧ l ≠ [] := by
  cases b <;> by_cases h : l = [] <;> simp [h]

theorem ragPages_sorted_lt (g : RagGroup) : (ragPages g).Sorted (· < ·) := by
  have hs : (ragPages g).Sorted (· ≤ ·) := List.sorted_insertionSort _ _
  have hn : (ragPages g).Nodup :=
    ((List.perm_insertionSort (· ≤ ·) _).nodup_iff).mpr
      (List.nodup_dedup (g.doc_items.filterMap firstProvPage))
  exact (hs.and hn).imp fun h => lt_of_le_of_ne h.1 h.2

theorem mem_ragPages (g : RagGroup) (p : Nat) :
    p ∈ ragPages g ↔ ∃ e, e ∈ g.doc_items ∧ firstProvPage e = some p := by
  rw [ragPages, (List.perm_insertionSort (· ≤ ·) _).mem_iff, List.mem_dedup,
    List.mem_filterMap]

theorem natStrAux_eq_digits :
    ∀ fuel n, n ≤ fuel → natStrAux fuel n = ((Nat.digits 10 n).reverse.map Nat.digitChar) := by
  intro fuel
  induction fuel with
  | zero =>
      intro n h
      have : n = 0 := Nat.le_zero.mp h
      subst this
      simp [natStrAux]
  | succ f ih =>
      intro n h
      match n with
      | 0 => simp [natStrAux]
      | m + 1 =>
          have hdiv : (m + 1) / 10 ≤ f := by
            have h1 : (m + 1) / 10 < m + 1 := Nat.div_lt_self (Nat.succ_pos m) (by norm_num)
            omega
          rw [natStrAux, ih _ hdiv,
            Nat.digits_def' (by norm_num : 1 < 10) (Nat.succ_pos m)]
          simp

theorem digitVal_digitChar : ∀ d, d < 10 → digitVal (Nat.digitChar d) = d := by decide

theorem map_digitVal_digitChar (l : List Nat) (h : ∀ d ∈ l, d < 10) :
    (l.map Nat.digitChar).map digitVal = l := by
  induction l with
  | nil => simp
  | cons a t ih =>
      simp only [List.map_cons, List.cons.injEq]
      exact ⟨digitVal_digitChar a (h a (List.mem_cons_self a t)),
        ih fun d hd => h d (List.mem_cons_of_mem a hd)⟩

theorem digitsChars_inj {m n : Nat}
    (h : ((Nat.digits 10 m).reverse.map Nat.digitChar) =
      ((Nat.digits 10 n).reverse.map Nat.digitChar)) : m = n := by
  have hm : ∀ d ∈ (Nat.digits 10 m).reverse, d < 10 := by
    intro d hd
    exact Nat.digits_lt_base (by norm_num) (List.mem_reverse.mp hd)
  have hn : ∀ d ∈ (Nat.digits 10 n).reverse, d < 10 := by
    intro d hd
    exact Nat.digits_lt_base (by norm_num) (List.mem_reverse.mp hd)
  have h2 : (Nat.digits 10 m).reverse = (Nat.digits 10 n).reverse := by
    calc (Nat.digits 10 m).reverse
        = (((Nat.digits 10 m).reverse.map Nat.digitChar).map digitVal) :=
          (map_digitVal_digitChar _ hm).symm
      _ = (((Nat.digits 10 n).reverse.map Nat.digitChar).map digitVal) := by rw [h]
      _ = (Nat.digits 10 n).reverse := map_digitVal_digitChar _ hn
  exact Nat.digits.injective 10 (List.reverse_injective h2)

theorem eq_zero_of_digitsChars_single {n : Nat}
    (hd : (Nat.digits 10 n).reverse.map Nat.digitChar = ['0']) : n = 0 := by
  have hb : ∀ d ∈ (Nat.digits 10 n).reverse, d < 10 := by
    intro d hdm
    exact Nat.digits_lt_base (by norm_num) (List.mem_reverse.mp hdm)
  have h0 : List.map digitVal ['0'] = [0] := by decide
  have hrev : (Nat.digits 10 n).reverse = [0] := by
    have := congrArg (List.map digitVal) hd
    rw [map_digitVal_digitChar _ hb, h0] at this
    exact this
  have hdig : Nat.digits 10 n = [0] := by
    have := congrArg List.reverse hrev
    simpa using this
  have := Nat.ofDigits_digits 10 n
  rw [hdig] at this
  simpa [Nat.ofDigits] using this.symm

theorem natStr_injective : Function.Injective natStr := by
  intro m n h
  unfold natStr at h
  by_cases hm : m = 0 <;> by_cases hn : n = 0
  · omega
  · exfalso
    rw [if_pos hm, if_neg hn] at h
    have hd : (Nat.digits 10 n).reverse.map Nat.digitChar = ['0'] := by
      have := congrArg String.data h
      simp [natStrAux_eq_digits n n le_rfl] at this
      rw [List.map_reverse]
      exact this.symm
    exact hn (eq_zero_of_digitsChars_single hd)
  · exfalso
    rw [if_neg hm, if_pos hn] at h
    have hd : (Nat.digits 10 m).reverse.map Nat.digitChar = ['0'] := by
      have := congrArg String.data h
      simpa [natStrAux_eq_digits m m le_rfl] using this
    exact hm (eq_zero_of_digitsChars_single hd)
  · rw [if_neg hm, if_neg hn] at h
    have hd := congrArg String.data h
    simp only [natStrAux_eq_digits m m le_rfl, natStrAux_eq_digits n n le_rfl] at hd
    exact digitsChars_inj hd

theorem string_append_cancel_left {s t u : String} (h : s ++ t = s ++ u) : t = u := by
  have hdata : s.data ++ t.data = s.data ++ u.data := by
    have := congrArg String.data h
    simpa using this
  exact congrArg String.mk (List.append_cancel_left hdata)

theorem chunkIdOf_injective (s : String) :
    Function.Injective (fun n => s ++ natStr n) := by
  intro a b h
  exact natStr_injective (string_append_cancel_left h)

/-! ## Claim theorems -/

/-- Claim C1: in every raw-mode response the chunk indices are contiguous and
zero-based (`chunks[i].metadata.chunk_index == i`, expressed as the index
projection being `range`), and the `chunk_id` strings
(`"{filename}_{index}"`) are pairwise distinct. -/
theorem raw_chunk_index_contiguous_and_ids_unique (filename : String)
    (elems : List Element) :
    ((rawChunks filename elems).map fun c => c.metadata.chunk_index) =
      List.range elems.length
    ∧ ((rawChunks filename elems).map fun c => c.chunk_id).Nodup := by
  constructor
  · rw [rawChunks, List.map_map]
    have h : ((fun c => c.metadata.chunk_index) ∘ fun p => mkRawChunk filename p.1 p.2) =
        Prod.fst := by
      funext p
      rfl
    rw [h, List.enum_map_fst]
  · rw [rawChunks, List.map_map]
    have h : ((fun c => c.chunk_id) ∘ fun p => mkRawChunk filename p.1 p.2) =
        (fun n => (filename ++ "_") ++ natStr n) ∘ Prod.fst := by
      funext p
      rfl
    rw [h, ← List.map_map, List.enum_map_fst]
    refine List.Nodup.map ?_ (List.nodup_range _)
    intro a b hab
    exact natStr_injective (string_append_cancel_left hab)

/-- Claim C6: in raw mode an element contributes a `{page, text, bbox}` record
to the side `tables` list exactly when `extract_tables` is set and its label
contains `"table"` case-insensitively (and analogously for `"picture"` and
the `images` list under `extract_images`); the response carries a
`tables` (resp. `images`) key iff the flag was set and the list is
non-empty. -/
theorem raw_side_lists_gating (filename : String) (sizeMb : ℚ) (et ei : Bool)
    (elems : List Element) (np : Nat) :
    tableRecs et elems =
      (if et then (elems.filter fun e => strHasSub (pyLower e.label) "table").map mkTableRec
       else [])
    ∧ imageRecs ei elems =
      (if ei then (elems.filter fun e => strHasSub (pyLower e.label) "picture").map mkImageRec
       else [])
    ∧ ((buildRawResponse filename sizeMb et ei ⟨elems, np⟩).tables.isSome ↔
        et = true ∧ tableRecs et elems ≠ [])
    ∧ ((buildRawResponse filename sizeMb et ei ⟨elems, np⟩).images.isSome ↔
        ei = true ∧ imageRecs ei elems ≠ []) := by
  have ht : tableRecs et elems =
      (if et then (elems.filter fun e => strHasSub (pyLower e.label) "table").map mkTableRec
       else []) := by
    cases et with
    | false => simp [tableRecs]
    | true => simp [tableRecs, filterMap_if_eq_filter_map]
  have hi : imageRecs ei elems =
      (if ei then (elems.filter fun e => strHasSub (pyLower e.label) "picture").map mkImageRec
       else []) := by
    cases ei with
    | false => simp [imageRecs]
    | true => simp [imageRecs, filterMap_if_eq_filter_map]
  refine ⟨ht, hi, ?_, ?_⟩
  · show (if et && !(tableRecs et elems).isEmpty then some (tableRecs et elems)
      else none).isSome ↔ et = true ∧ tableRecs et elems ≠ []
    exact option_gate_isSome et (tableRecs et elems)
  · show (if ei && !(imageRecs ei elems).isEmpty then some (imageRecs ei elems)
      else none).isSome ↔ ei = true ∧ imageRecs ei elems ≠ []
    exact option_gate_isSome ei (imageRecs ei elems)

/-- Claim C10: with `extract_tables` off `metadata.total_tables` is 0 and with
`extract_images` off `metadata.total_images` is 0, whatever elements the
document contains: the counts measure the extracted side lists. -/
theorem side_list_totals_respect_flags (filename : String) (sizeMb : ℚ) (et ei : Bool)
    (elems : List Element) (np : Nat) :
    (buildRawResponse filename sizeMb false ei ⟨elems, np⟩).metadata.total_tables = 0
    ∧ (buildRawResponse filename sizeMb et false ⟨elems, np⟩).metadata.total_images = 0 := by
  constructor
  · show (tableRecs false elems).length = 0
    simp [tableRecs]
  · show (imageRecs false elems).length = 0
    simp [imageRecs]

/-- Claim C7: when the converter failed to initialize, all three document
endpoints refuse the request with a 503 before reading the upload or doing
any processing (empty event trace), and `GET /health` reports
`converter_ready` exactly equal to converter availability. -/
theorem converter_unavailable_all_endpoints_refuse
    (f1 f2 f3 : String) (n1 n2 n3 : Nat) (et ei ocr : Bool)
    (cs co : Int) (mp : Bool) (enum : List String → List String)
    (conv1 : Except String RawDoc) (conv2 : Except String RagDoc)
    (conv3 : Except String TDoc) (u1 u2 u3 : Bool) :
    process_document false f1 n1 et ei ocr conv1 u1 =
      ⟨.error ⟨503, .converterNotInit⟩, []⟩
    ∧ process_for_rag false f2 n2 cs co mp enum conv2 u2 =
      ⟨.error ⟨503, .converterNotInit⟩, []⟩
    ∧ extract_tables_only false f3 n3 conv3 u3 =
      ⟨.error ⟨503, .converterNotInit⟩, []⟩
    ∧ ∀ r : Bool, (health_check r).converter_ready = r :=
  ⟨rfl, rfl, rfl, fun _ => rfl⟩

/-- Claim C2: in every RAG-mode chunk `metadata.pages` is strictly ascending
with no duplicates (expressed as `Sorted (· < ·)`) and contains exactly the
distinct first-provenance page numbers of the constituent elements; elements
without provenance contribute none. -/
theorem rag_pages_sorted_distinct (enum : List String → List String)
    (filename : String) (groups : List RagGroup) :
    (∀ c ∈ ragChunks enum filename groups, c.metadata.pages.Sorted (· < ·))
    ∧ ∀ idx : Nat, ∀ g : RagGroup,
        (mkRagChunk enum filename idx g).metadata.pages.Sorted (· < ·)
        ∧ ∀ p : Nat, p ∈ (mkRagChunk enum filename idx g).metadata.pages ↔
            ∃ e, e ∈ g.doc_items ∧ firstProvPage e = some p := by
  constructor
  · intro c hc
    obtain ⟨q, _, rfl⟩ := List.mem_map.mp hc
    exact ragPages_sorted_lt q.2
  · intro idx g
    exact ⟨ragPages_sorted_lt g, fun p => mem_ragPages g p⟩

/-- Witness for C2 at a concrete group with constituents on pages 3 and 1. -/
theorem rag_pages_sorted_distinct_witness :
    (mkRagChunk enumA "doc.pdf" 0 gW).metadata.pages.Sorted (· < ·)
    ∧ (3 ∈ (mkRagChunk enumA "doc.pdf" 0 gW).metadata.pages ↔
        ∃ e, e ∈ gW.doc_items ∧ firstProvPage e = some 3) := by
  have h := rag_pages_sorted_distinct enumA "doc.pdf" [gW]
  exact ⟨h.1 (mkRagChunk enumA "doc.pdf" 0 gW) (by decide), (h.2 0 gW).2 3⟩

/-- Claim C3: in every RAG-mode chunk `metadata.token_count` equals the number
of whitespace-separated tokens of the chunk's own `text` field. -/
theorem rag_token_count_matches_text (enum : List String → List String)
    (filename : String) (groups : List RagGroup) :
    ∀ c ∈ ragChunks enum filename groups,
      c.metadata.token_count = (pyWsTokens c.text).length := by
  intro c hc
  obtain ⟨q, _, rfl⟩ := List.mem_map.mp hc
  rfl

/-- Witness for C3 at a concrete three-word chunk. -/
theorem rag_token_count_matches_text_witness :
    (mkRagChunk enumA "doc.pdf" 0 gW).metadata.token_count =
      (pyWsTokens (mkRagChunk enumA "doc.pdf" 0 gW).text).length :=
  rag_token_count_matches_text enumA "doc.pdf" [gW] _ (by decide)

/-- Counterexample to claim C4 as stated: `element_types` is serialized by
`list(element_types)` over a Python set, whose enumeration order is not fixed
across runs.  Two legitimate set enumerations (insertion order and reverse
insertion order) are exhibited on the same document group and yield different
serialized lists. -/
theorem rag_element_types_order_nondeterministic_cex :
    (enumA [elemTable3.label, elemText1.label]).Perm
      ([elemTable3.label, elemText1.label].dedup)
    ∧ (enumB [elemTable3.label, elemText1.label]).Perm
      ([elemTable3.label, elemText1.label].dedup)
    ∧ (mkRagChunk enumA "doc.pdf" 0 gW).metadata.element_types ≠
      (mkRagChunk enumB "doc.pdf" 0 gW).metadata.element_types := by
  refine ⟨by decide, by decide, by decide⟩

/-- Claim C4 (amended): under any legitimate set enumeration, the
`element_types` list of a RAG-mode chunk is a permutation of the distinct
constituent labels — the underlying set is a deterministic function of the
labels, but the serialization order is not fixed. -/
theorem rag_element_types_set_determined (enum : List String → List String)
    (h : IsSetEnum enum) (filename : String) (idx : Nat) (g : RagGroup) :
    ((mkRagChunk enum filename idx g).metadata.element_types).Perm
      ((g.doc_items.map Element.label).dedup) :=
  h (g.doc_items.map Element.label)

/-- Witness for the amended C4 at a concrete group. -/
theorem rag_element_types_set_determined_witness :
    ((mkRagChunk enumA "doc.pdf" 0 gW).metadata.element_types).Perm
      ((gW.doc_items.map Element.label).dedup) :=
  rag_element_types_set_determined enumA (fun l => List.Perm.refl l.dedup) "doc.pdf" 0 gW

/-- Counterexample to claim C5 as stated: the `/api/extract-tables` upload
endpoint performs no size validation at all, so a file strictly larger than
50 MB (52428801 bytes) is processed normally and a temporary file is
created. -/
theorem extract_tables_missing_size_check_cex :
    (50 : ℚ) < ((52428801 : Nat) : ℚ) / (1024 * 1024)
    ∧ (extract_tables_only true "big.pdf" 52428801 (.ok ⟨[]⟩) false).result =
      .ok (buildTablesResponse "big.pdf" ⟨[]⟩)
    ∧ Event.tempCreated ∈
      (extract_tables_only true "big.pdf" 52428801 (.ok ⟨[]⟩) false).events :=
  ⟨mb_above_50_gt, rfl, by decide⟩

/-- Claim C5 (amended): on `/api/process` and `/api/process-rag` a file of at
most 50 MB (including exactly 50 MB) passes the size check and reaches
temp-file creation, while a file above 50 MB is rejected with a 413
size-validation failure before any temporary file is created;
`/api/extract-tables` has no size check. -/
theorem size_limit_on_process_endpoints
    (f1 f2 : String) (n : Nat) (et ei ocr : Bool) (cs co : Int) (mp : Bool)
    (enum : List String → List String)
    (conv1 : Except String RawDoc) (conv2 : Except String RagDoc) (uf : Bool) :
    ((n : ℚ) / (1024 * 1024) ≤ 50 →
      Event.tempCreated ∈ (process_document true f1 n et ei ocr conv1 uf).events
      ∧ Event.tempCreated ∈ (process_for_rag true f2 n cs co mp enum conv2 uf).events)
    ∧ ((50 : ℚ) < (n : ℚ) / (1024 * 1024) →
      (process_document true f1 n et ei ocr conv1 uf).result = .error ⟨413, .fileTooLarge⟩
      ∧ (process_document true f1 n et ei ocr conv1 uf).events = [.fileRead]
      ∧ (process_for_rag true f2 n cs co mp enum conv2 uf).result =
        .error ⟨413, .fileTooLarge⟩
      ∧ (process_for_rag true f2 n cs co mp enum conv2 uf).events = [.fileRead]) := by
  constructor
  · intro h
    have hns : ¬ sizeExceeds50MB n := not_sizeExceeds_of_le h
    constructor
    · cases conv1 <;> simp [process_document, hns, cleanupEvents]
    · cases conv2 <;> simp [process_for_rag, hns, cleanupEvents]
  · intro h
    have hs : sizeExceeds50MB n := sizeExceeds_of_gt h
    refine ⟨?_, ?_, ?_, ?_⟩ <;> simp [process_document, process_for_rag, hs]

/-- Witness for the amended C5: a file of exactly 50 MB reaches temp-file
creation on `/api/process`, and one byte more is rejected with a 413 on
`/api/process-rag`. -/
theorem size_limit_on_process_endpoints_witness :
    Event.tempCreated ∈
      (process_document true "a.pdf" 52428800 true false true (.ok ⟨[], 1⟩) false).events
    ∧ (process_for_rag true "a.pdf" 52428801 512 50 true enumA (.error "boom") false).result
      = .error ⟨413, .fileTooLarge⟩ := by
  constructor
  · exact ((size_limit_on_process_endpoints "a.pdf" "b.pdf" 52428800 true false true 512 50
      true enumA (.ok ⟨[], 1⟩) (.error "boom") false).1 mb_exact_50_le).1
  · exact (((size_limit_on_process_endpoints "a.pdf" "a.pdf" 52428801 true false true 512 50
      true enumA (.ok ⟨[], 1⟩) (.error "boom") false).2 mb_above_50_gt).2).2.1

/-- Claim C8: whenever a temporary file was written (the `tempCreated` event
occurred), its deletion is attempted on every exit path, and a failing
deletion is only logged: the handler's HTTP result is identical whether the
unlink fails or succeeds.  Stated for all three upload endpoints. -/
theorem temp_file_cleanup_guaranteed
    (ready : Bool) (f1 f2 f3 : String) (n1 n2 n3 : Nat) (et ei ocr : Bool)
    (cs co : Int) (mp : Bool) (enum : List String → List String)
    (conv1 : Except String RawDoc) (conv2 : Except String RagDoc)
    (conv3 : Except String TDoc) (uf : Bool) :
    (Event.tempCreated ∈ (process_document ready f1 n1 et ei ocr conv1 uf).events →
      Event.unlinkTried ∈ (process_document ready f1 n1 et ei ocr conv1 uf).events)
    ∧ (Event.tempCreated ∈ (process_for_rag ready f2 n2 cs co mp enum conv2 uf).events →
      Event.unlinkTried ∈ (process_for_rag ready f2 n2 cs co mp enum conv2 uf).events)
    ∧ (Event.tempCreated ∈ (extract_tables_only ready f3 n3 conv3 uf).events →
      Event.unlinkTried ∈ (extract_tables_only ready f3 n3 conv3 uf).events)
    ∧ (process_document ready f1 n1 et ei ocr conv1 true).result =
      (process_document ready f1 n1 et ei ocr conv1 false).result
    ∧ (process_for_rag ready f2 n2 cs co mp enum conv2 true).result =
      (process_for_rag ready f2 n2 cs co mp enum conv2 false).result
    ∧ (extract_tables_only ready f3 n3 conv3 true).result =
      (extract_tables_only ready f3 n3 conv3 false).result := by
  refine ⟨?_, ?_, ?_, ?_, ?_, ?_⟩
  · cases ready with
    | false => intro h; simp [process_document] at h
    | true =>
      by_cases hs : sizeExceeds50MB n1
      · intro h; simp [process_document, hs] at h
      · intro _; cases conv1 <;> simp [process_document, hs, cleanupEvents]
  · cases ready with
    | false => intro h; simp [process_for_rag] at h
    | true =>
      by_cases hs : sizeExceeds50MB n2
      · intro h; simp [process_for_rag, hs] at h
      · intro _; cases conv2 <;> simp [process_for_rag, hs, cleanupEvents]
  · cases ready with
    | false => intro h; simp [extract_tables_only] at h
    | true => intro _; cases conv3 <;> simp [extract_tables_only, cleanupEvents]
  · cases ready with
    | false => rfl
    | true =>
      by_cases hs : sizeExceeds50MB n1
      · simp [process_document, hs]
      · cases conv1 <;> simp [process_document, hs]
  · cases ready with
    | false => rfl
    | true =>
      by_cases hs : sizeExceeds50MB n2
      · simp [process_for_rag, hs]
      · cases conv2 <;> simp [process_for_rag, hs]
  · cases ready with
    | false => rfl
    | true => cases conv3 <;> simp [extract_tables_only]

/-- Witness for C8: on a failed conversion the temporary file's unlink is
still attempted. -/
theorem temp_file_cleanup_guaranteed_witness :
    Event.unlinkTried ∈
      (process_document true "a.pdf" 10 true false true (.error "boom") false).events :=
  (temp_file_cleanup_guaranteed true "a.pdf" "b.pdf" "c.pdf" 10 10 10 true false
    true 512 50 true enumA (.error "boom") (.error "boom") (.error "boom") false).1
    (by decide)

theorem filterMap_if_none_eq_filter_map {α β : Type} (q : α → Prop) [DecidablePred q]
    (f : α → β) (l : List α) :
    (l.filterMap fun a => if q a then none else some (f a)) =
      (l.filter fun a => decide (¬ q a)).map f := by
  induction l with
  | nil => rfl
  | cons a t ih => by_cases h : q a <;> simp [List.filterMap_cons, List.filter_cons, h, ih]

/-- Claim C9 (spec-modelled): spreadsheet chunks are exactly the rows with
non-empty derived text, in order, with `metadata.row` equal to the zero-based
source row index plus 2; an all-null row has empty text (hence yields no
chunk and is absent from `total_chunks`) while `total_rows` counts every
source row. -/
theorem spreadsheet_row_chunker_rows (filename : String) (rows : List ExcelRow) :
    excelChunks filename rows =
      ((rows.enum.filter fun p => decide (¬ rowText p.2 = "")).map fun p =>
        { text := rowText p.2, metadata := { filename := filename, row := p.1 + 2 } })
    ∧ (excelMeta filename rows).total_rows = rows.length
    ∧ (excelMeta filename rows).total_chunks = (excelChunks filename rows).length
    ∧ ∀ r : ExcelRow, allNullRow r = true → rowText r = "" := by
  refine ⟨?_, rfl, rfl, ?_⟩
  · exact filterMap_if_none_eq_filter_map (fun p => rowText p.2 = "") _ rows.enum
  · intro r h
    have h' : r.cells.all (fun cv => cv.2.isNone) = true := h
    have hnil : (r.cells.filterMap fun cv => cv.2.map fun v => cv.1 ++ ": " ++ v) = [] := by
      rw [List.filterMap_eq_nil_iff]
      intro cv hcv
      have h2 := List.all_eq_true.mp h' cv hcv
      cases hcc : cv.2 with
      | none => rfl
      | some v => rw [hcc] at h2; simp at h2
    rw [rowText, hnil]
    rfl

/-- Witness for C9: a concrete all-null row derives empty text. -/
theorem spreadsheet_row_chunker_rows_witness :
    rowText rowAllNull = "" :=
  (spreadsheet_row_chunker_rows "t.xlsx" [rowAllNull]).2.2.2 rowAllNull (by decide)
